import Mathlib

/-!
Verification of the pattern-parsing subsystem (`lib/Parse/ParsePattern.cpp`).

The C++ source is shallowly embedded: the mutually recursive descent
functions become Lean functions over an explicit parser state (a token
list, a diagnostic list, and an assertion flag), in-place AST mutation by
the fully-typed checker becomes functional tree rewriting, and the two
external collaborators (the expression parser used for tuple-element
defaults and the type parser used for annotations and return types) are
driven by oracle tokens carrying the outcome the collaborator would
produce, so that every combination of external outcomes is representable
by some token list.  Recursion is by fuel, structurally; the top-level
wrappers supply fuel that is ample for every concrete input, and the
universally quantified theorems are proved for every fuel value.
-/

namespace ParsePattern

/-- An opaque expression produced by the external expression parser. -/
inductive Expr where
  | mk (id : Nat)
deriving DecidableEq

/-- Types, mirroring the `Type` values this file builds: `TupleType::get`
over tuple-type elements (with `TupleType::getEmpty` as `tupleTy []`),
`FunctionType::get`, and opaque types delivered by the external type
parser (`base`).  Child positions are nullable handles (`Option Ty`), as
in the C++ AST.  A tuple-type element mirrors
`TupleTypeElt(Type, Identifier, Expr*)`: the (possibly null) element
type, the bound name, and the optional default expression. -/
inductive Ty where
  | base (id : Nat)
  | tupleTy (elts : List (Option Ty × String × Option Expr))
  | fn (input : Option Ty) (result : Option Ty)

abbrev TupleTypeElt := Option Ty × String × Option Expr

/-- Pattern AST, mirroring `AnyPattern`, `NamedPattern`, `ParenPattern`,
`TuplePattern` (elements are (pattern, optional default expression)
pairs, mirroring `TuplePatternElt`) and `TypedPattern`.  Every node
carries its (initially absent) resolved type; a `TypedPattern` is
constructed with its explicit annotation. -/
inductive Pattern where
  | any (ty : Option Ty)
  | named (name : String) (ty : Option Ty)
  | paren (sub : Pattern) (ty : Option Ty)
  | tuple (elts : List (Pattern × Option Expr)) (ty : Option Ty)
  | typed (sub : Pattern) (ty : Ty)

abbrev TuplePatternElt := Pattern × Option Expr

/-- Embeds `Pattern::getType`: the node's resolved type (a nullable handle). -/
def Pattern.getType : Pattern → Option Ty
  | .any t => t
  | .named _ t => t
  | .paren _ t => t
  | .tuple _ t => t
  | .typed _ t => some t

/-- Modelled from the spec: `Pattern::getBoundName` is defined outside this
file; the spec's data model says the bound name "is the bound name of its
pattern if it is `Named`, else empty". -/
def Pattern.getBoundName : Pattern → String
  | .named n _ => n
  | _ => ""

/-- Diagnostics emitted by this file: `expected_pattern`,
`expected_rparen_tuple_pattern_list`,
`untyped_pattern_in_function_signature`. -/
inductive Diag where
  | expectedPattern
  | expectedRParen
  | untypedPattern
deriving DecidableEq

/-- Token kinds consulted by this file, plus the oracle kinds standing for
input that only the external expression/type parsers consume. -/
inductive TokKind where
  | lparen | lparenSpace | rparen | comma | colon | equal | arrow
  | identifier | exprOracle | typeOracle | eof
deriving DecidableEq

/-- Outcome prescribed by an expression-oracle token: what the external
expression parser returns when invoked there. -/
inductive ExprRes where
  | success (e : Expr)
  | semaError
  | parseError

/-- Tokens.  `exprTok`/`typeTok` are oracle tokens: they stand for the
stretch of input consumed by the external expression/type parser and
prescribe that collaborator's outcome. -/
inductive Tok where
  | lparen | lparenSpace | rparen | comma | colon | equal | arrow
  | ident (text : String)
  | exprTok (r : ExprRes)
  | typeTok (r : Option Ty)
  | eof

def Tok.kind : Tok → TokKind
  | .lparen => .lparen
  | .lparenSpace => .lparenSpace
  | .rparen => .rparen
  | .comma => .comma
  | .colon => .colon
  | .equal => .equal
  | .arrow => .arrow
  | .ident _ => .identifier
  | .exprTok _ => .exprOracle
  | .typeTok _ => .typeOracle
  | .eof => .eof

/-- Embeds `Tok.is(tok::l_paren) || Tok.is(tok::l_paren_space)`, the guard used
by the tuple-pattern assertion, the atom dispatch and the clause loop. -/
def Tok.isLParenLike : Tok → Bool
  | .lparen => true
  | .lparenSpace => true
  | _ => false

/-- Parser state: the remaining token stream, the diagnostics emitted so
far, and a flag recording whether the `parsePatternTuple` entry assertion
has fired. -/
structure PState where
  toks : List Tok
  diags : List Diag
  assertFailed : Bool

/-- The current token (`Tok`); an exhausted stream reads as end-of-file. -/
def PState.curTok (s : PState) : Tok := s.toks.headD .eof

/-- Embeds `consumeToken()`: drop the current token. -/
def consumeToken (s : PState) : PState := { s with toks := s.toks.tail }

/-- Embeds `consumeIf(kind)`: consume the current token when it has the given
kind, reporting whether it did. -/
def consumeIf (k : TokKind) (s : PState) : Bool × PState :=
  if s.curTok.kind = k then (true, consumeToken s) else (false, s)

/-- Embeds `diagnose(...)`: append a diagnostic to the sink. -/
def diagnose (d : Diag) (s : PState) : PState :=
  { s with diags := s.diags ++ [d] }

/-- Token-list part of skip-to-closing-parenthesis. -/
def skipToRParenToks : List Tok → List Tok
  | [] => []
  | t :: rest =>
    match t with
    | .rparen => rest
    | _ => skipToRParenToks rest

/-- Modelled from the spec: `Parser::skipUntil(tok::r_paren)` is declared
outside this file; the spec says hard-failure recovery "skips tokens up to
and including the next closing parenthesis". -/
def skipUntilRParen (s : PState) : PState :=
  { s with toks := skipToRParenToks s.toks }

/-- Tri-state parse result, mirroring `ParseResult<T>`: a value, a hard
syntax failure, or a soft semantic failure (which carries no value;
`get()` is only used on successes in this file). -/
inductive ParseResult (α : Type) where
  | success (val : α)
  | parseError
  | semaError

/-- Modelled from the spec: the external expression parser
(`Parser::parseExpr`), consulted only for tuple-element default values.
It consumes one expression-oracle token and returns the outcome that
token prescribes; on any other token it fails hard without consuming. -/
def parseExpr (s : PState) : ParseResult Expr × PState :=
  match s.toks with
  | .exprTok (.success e) :: rest => (.success e, { s with toks := rest })
  | .exprTok .semaError :: rest => (.semaError, { s with toks := rest })
  | .exprTok .parseError :: rest => (.parseError, { s with toks := rest })
  | _ => (.parseError, s)

/-- Modelled from the spec: the external type parser
(`Parser::parseType`), used for explicit annotations and return types.
It consumes one type-oracle token and returns the type (or failure) that
token prescribes; on any other token it fails without consuming.
`none` plays the role of `parseType` returning `true` (error). -/
def parseType (s : PState) : Option Ty × PState :=
  match s.toks with
  | .typeTok r :: rest => (r, { s with toks := rest })
  | _ => (none, s)

/-! ## The fully-typed checker/elaborator (`checkFullyTyped`)

The C++ pass mutates the tree it validates (`setType`); the embedding
returns the rewritten tree alongside the C++ `bool` result (`true` =
failure) and the diagnostics emitted. -/

mutual

/-- Embeds `checkFullyTyped(P, pattern)`: validate that the pattern is fully
typed and synthesize composite types onto `Paren`/`Tuple` nodes. -/
def checkFullyTyped : Pattern → Bool × Pattern × List Diag
  | .typed sub t => (false, .typed sub t, [])
  | .paren sub ty =>
    match checkFullyTyped sub with
    | (true, sub1, ds) => (true, .paren sub1 ty, ds)
    | (false, sub1, ds) => (false, .paren sub1 sub1.getType, ds)
  | .tuple elts ty =>
    match checkTupleElts elts with
    | (true, elts1, _, ds) => (true, .tuple elts1 ty, ds)
    | (false, elts1, typeElts, ds) =>
      (false, .tuple elts1 (some (.tupleTy typeElts)), ds)
  | .named n ty => (true, .named n ty, [.untypedPattern])
  | .any ty => (true, .any ty, [.untypedPattern])

/-- The element loop of `checkFullyTyped`'s `Tuple` case: check each
element's pattern in declaration order, accumulating the `TupleTypeElt`
list; the first failing element aborts. -/
def checkTupleElts :
    List TuplePatternElt →
    Bool × List TuplePatternElt × List TupleTypeElt × List Diag
  | [] => (false, [], [], [])
  | (p, init) :: rest =>
    match checkFullyTyped p with
    | (true, p1, ds) => (true, (p1, init) :: rest, [], ds)
    | (false, p1, ds) =>
      match checkTupleElts rest with
      | (bad, rest1, typeElts, ds2) =>
        (bad, (p1, init) :: rest1,
         (p1.getType, p1.getBoundName, init) :: typeElts, ds ++ ds2)

end

/-! ## The recursive-descent pattern parser

Each C++ member function becomes a fuel-indexed function; every
recursive call passes the predecessor fuel, and exhausted fuel reads as
a hard failure.  The wrappers below supply fuel that is ample for the
token list at hand. -/

/-- The tail of `parsePatternTuple` after the element list: consume the
closing parenthesis (`consumeToken(tok::r_paren)`), report a soft
failure when any element had one, and otherwise apply the single-element
demotion: a single element with no default whose pattern has an empty
bound name becomes a `ParenPattern`, anything else a `TuplePattern`. -/
def finishPatternTuple (elts : List TuplePatternElt) (hasSemaError : Bool)
    (s : PState) : ParseResult Pattern × PState :=
  if hasSemaError then (.semaError, consumeToken s)
  else
    match elts with
    | [(p, init)] =>
      if init = none ∧ p.getBoundName = "" then
        (.success (.paren p none), consumeToken s)
      else (.success (.tuple elts none), consumeToken s)
    | _ => (.success (.tuple elts none), consumeToken s)

/-- The element-loop bookkeeping of `parsePatternTuple` after one
element: a soft-failed pattern is recorded and appends nothing; a
successful pattern appends its element (whose default may itself have
soft-failed to a null default). -/
def tupleEltAcc (pat : ParseResult Pattern) (init : Option Expr)
    (elts : List TuplePatternElt) (hasSemaError initSema : Bool) :
    Bool × List TuplePatternElt :=
  match pat with
  | .semaError => (true, elts)
  | .success p => (hasSemaError || initSema, elts ++ [(p, init)])
  | .parseError => (hasSemaError || initSema, elts)

mutual

/-- Embeds `Parser::parsePattern`: parse a pattern atom, then an optional
`':' type` annotation wrapping the atom in a `TypedPattern`. -/
def parsePatternF : Nat → PState → ParseResult Pattern × PState
  | 0, s => (.parseError, s)
  | fuel + 1, s =>
    match parsePatternAtomF fuel s with
    | (.parseError, s1) => (.parseError, s1)
    | (pat, s1) =>
      if (consumeIf .colon s1).1 then
        match parseType (consumeIf .colon s1).2 with
        | (none, s2) => (.parseError, s2)
        | (some ty, s2) =>
          match pat with
          | .success p => (.success (.typed p ty), s2)
          | _ => (pat, s2)
      else (pat, (consumeIf .colon s1).2)

/-- Embeds `Parser::parsePatternAtom`: a parenthesis delegates to tuple
parsing; an identifier yields `AnyPattern` for `_` and otherwise a
`NamedPattern`; anything else is diagnosed `expected_pattern` and fails
hard. -/
def parsePatternAtomF : Nat → PState → ParseResult Pattern × PState
  | 0, s => (.parseError, s)
  | fuel + 1, s =>
    match s.curTok with
    | .lparen => parsePatternTupleF fuel s
    | .lparenSpace => parsePatternTupleF fuel s
    | .ident text =>
      let s1 := consumeToken s
      if text = "_" then (.success (.any none), s1)
      else (.success (.named text none), s1)
    | _ => (.parseError, diagnose .expectedPattern s)

/-- Embeds `Parser::parsePatternTuple`: assert the opening parenthesis (the
flag records a violation) and consume it; parse the comma-separated
element list unless the closing parenthesis is immediately next; a
missing closing parenthesis after the list is diagnosed
(`expected_rparen_tuple_pattern_list`), recovered by
skip-to-closing-parenthesis, and fails hard; otherwise finish with the
demotion step. -/
def parsePatternTupleF : Nat → PState → ParseResult Pattern × PState
  | 0, s => (.parseError, s)
  | fuel + 1, s =>
    if s.curTok.isLParenLike then
      if (consumeToken s).curTok.kind = .rparen then
        finishPatternTuple [] false (consumeToken s)
      else
        match parseTupleEltsF fuel (consumeToken s) [] false with
        | (none, s2) => (.parseError, s2)
        | (some (elts, hasSemaError), s2) =>
          if s2.curTok.kind = .rparen then
            finishPatternTuple elts hasSemaError s2
          else
            (.parseError, skipUntilRParen (diagnose .expectedRParen s2))
    else (.parseError, { s with assertFailed := true })

/-- The `do ... while (consumeIf(tok::comma))` element loop of
`parsePatternTuple`.  `none` is the hard-failure exit (token skipping
already applied); `some` carries the accumulated element list and the
soft-failure flag.  A hard failure of the element's pattern or of its
default expression skips up to and including the next closing
parenthesis and exits hard; a soft failure of the pattern leaves the
element list untouched, a soft failure of the default keeps the element
with a null default, and both set the soft-failure flag. -/
def parseTupleEltsF :
    Nat → PState → List TuplePatternElt → Bool →
    Option (List TuplePatternElt × Bool) × PState
  | 0, s, _, _ => (none, s)
  | fuel + 1, s, elts, hasSemaError =>
    match parsePatternF fuel s with
    | (.parseError, s1) => (none, skipUntilRParen s1)
    | (pat, s1) =>
      match
        (if (consumeIf .equal s1).1 then
          match parseExpr (consumeIf .equal s1).2 with
          | (.parseError, s3) => (none, s3)
          | (.semaError, s3) => (some (none, true), s3)
          | (.success e, s3) => (some (some e, false), s3)
        else ((some (none, false) : Option (Option Expr × Bool)),
              (consumeIf .equal s1).2)) with
      | (none, s3) => (none, skipUntilRParen s3)
      | (some (init, initSema), s3) =>
        if (consumeIf .comma s3).1 then
          parseTupleEltsF fuel (consumeIf .comma s3).2
            (tupleEltAcc pat init elts hasSemaError initSema).2
            (tupleEltAcc pat init elts hasSemaError initSema).1
        else
          (some ((tupleEltAcc pat init elts hasSemaError initSema).2,
                 (tupleEltAcc pat init elts hasSemaError initSema).1),
           (consumeIf .comma s3).2)

end

/-- The `do ... while` clause loop of `Parser::parseFunctionSignature`:
each iteration parses one parenthesized clause; a hard failure aborts
the whole signature (`none`), a soft failure is recorded in the flag
without contributing a clause pattern, and a success is appended; the
loop continues while the next token opens another clause. -/
def parseSigClausesF :
    Nat → PState → List Pattern → Bool →
    Option (List Pattern × Bool) × PState
  | 0, s, _, _ => (none, s)
  | fuel + 1, s, params, hasSemaError =>
    match parsePatternTupleF fuel s with
    | (.parseError, s1) => (none, s1)
    | (.semaError, s1) =>
      if s1.curTok.isLParenLike then parseSigClausesF fuel s1 params true
      else (some (params, true), s1)
    | (.success p, s1) =>
      if s1.curTok.isLParenLike then
        parseSigClausesF fuel s1 (params ++ [p]) hasSemaError
      else (some (params ++ [p], hasSemaError), s1)

/-- The fully-typed fold of `parseFunctionSignature`: walk the clause
list from last-declared to first-declared, run `checkFullyTyped` on each
clause pattern, use its synthesized type as the parameter type (or the
empty-tuple type on failure, continuing rather than aborting), and wrap
`FunctionType::get(paramType, resultSoFar)` at each step.  Returns the
rewritten clause patterns, the accumulated type, and the diagnostics in
emission order. -/
def buildFunctionType :
    List Pattern → Option Ty → List Pattern × Option Ty × List Diag
  | [], ty => ([], ty, [])
  | p :: rest, ty =>
    match buildFunctionType rest ty with
    | (rest1, ty1, ds1) =>
      match checkFullyTyped p with
      | (true, p1, ds) =>
        (p1 :: rest1, some (.fn (some (.tupleTy [])) ty1), ds1 ++ ds)
      | (false, p1, ds) =>
        (p1 :: rest1, some (.fn p1.getType ty1), ds1 ++ ds)

/-- Embeds `Parser::parseFunctionSignature`: parse the curried clause list;
then either consume an arrow and parse the return type (a failure there
is a hard failure for the signature) or default the return type to the
empty-tuple type; finally fold the clauses into the curried function
type.  `none` is the C++ `return true` hard failure; `some` carries the
(rewritten) clause patterns and the signature type. -/
def parseFunctionSignatureF (fuel : Nat) (s : PState) :
    Option (List Pattern × Option Ty) × PState :=
  match parseSigClausesF fuel s [] false with
  | (none, s1) => (none, s1)
  | (some (params, _), s1) =>
    match
      (if (consumeIf .arrow s1).1 then parseType (consumeIf .arrow s1).2
       else ((some (.tupleTy []) : Option Ty), (consumeIf .arrow s1).2)) with
    | (none, s2) => (none, s2)
    | (some retTy, s2) =>
      (some ((buildFunctionType params (some retTy)).1,
             (buildFunctionType params (some retTy)).2.1),
       { s2 with diags :=
          s2.diags ++ (buildFunctionType params (some retTy)).2.2 })

/-- Ample fuel for a token list: every parser step that spends one unit
of fuel without consuming a token hands off to a strictly lower layer of
the four-layer call chain. -/
def parserFuel (s : PState) : Nat := 8 * s.toks.length + 8

/-- Wrapper for `Parser::parsePattern` at ample fuel. -/
def parsePattern (s : PState) : ParseResult Pattern × PState :=
  parsePatternF (parserFuel s) s

/-- Wrapper for `Parser::parsePatternTuple` at ample fuel. -/
def parsePatternTuple (s : PState) : ParseResult Pattern × PState :=
  parsePatternTupleF (parserFuel s) s

/-- Wrapper for `Parser::parseFunctionSignature` at ample fuel. -/
def parseFunctionSignature (s : PState) :
    Option (List Pattern × Option Ty) × PState :=
  parseFunctionSignatureF (parserFuel s) s

/-- The parameter type the signature fold chooses for one clause
pattern, following the spec's words: the checker's synthesized type on
success, the empty-tuple recovery placeholder on failure.  Compared with
`buildFunctionType` in the refinement theorems. -/
def clauseParamType (p : Pattern) : Option Ty :=
  match checkFullyTyped p with
  | (true, _, _) => some (.tupleTy [])
  | (false, p1, _) => p1.getType

/-- Right-associated curried function type over the given parameter
types: the spec-side description of the fold's result shape. -/
def nestFn (paramTys : List (Option Ty)) (ret : Option Ty) : Option Ty :=
  paramTys.foldr (fun pt acc => some (.fn pt acc)) ret

/-- Number of levels of function-type nesting along the result spine. -/
def fnDepth : Option Ty → Nat
  | some (.fn _ r) => fnDepth r + 1
  | _ => 0

/-! ## Theorems -/

/-- C9: `checkFullyTyped` on a `Paren` node recurses into the
sub-pattern; a failing sub-check propagates failure leaving the `Paren`
node's own type slot untouched; a succeeding sub-check copies the
sub-pattern's resolved type verbatim onto the `Paren` node (the very
same `Option Ty` value) and succeeds. -/
theorem checkFullyTyped_paren_passthrough (sub : Pattern) (ty : Option Ty) :
    (∀ sub1 ds, checkFullyTyped sub = (true, sub1, ds) →
      checkFullyTyped (.paren sub ty) = (true, .paren sub1 ty, ds)) ∧
    (∀ sub1 ds, checkFullyTyped sub = (false, sub1, ds) →
      checkFullyTyped (.paren sub ty) =
        (false, .paren sub1 sub1.getType, ds)) := by
  refine ⟨fun sub1 ds h => ?_, fun sub1 ds h => ?_⟩ <;>
    simp [checkFullyTyped, h]

/-- Witness for C9 at a concrete input: the sub-pattern `_ : base 0`
resolves, and its type is copied verbatim onto the `Paren` node. -/
theorem checkFullyTyped_paren_passthrough_witness :
    checkFullyTyped (.paren (.typed (.any none) (.base 0)) none) =
      (false, .paren (.typed (.any none) (.base 0)) (some (.base 0)), []) :=
  (checkFullyTyped_paren_passthrough (.typed (.any none) (.base 0))
    none).2 _ _ (by simp [checkFullyTyped])

/-- C4: `checkFullyTyped` on a `Tuple` node processes the elements in
declaration order; the first failing element aborts the whole check,
leaving the remaining elements unvisited and attaching no type to the
tuple node; if every element succeeds, the synthesized tuple type is
exactly the ordered list of (element pattern's type, element pattern's
bound name, element's default expression), preserving order and bound
names. -/
theorem checkFullyTyped_tuple_elements (elts : List TuplePatternElt)
    (ty : Option Ty) :
    (∀ elts1 tElts ds, checkTupleElts elts = (true, elts1, tElts, ds) →
      checkFullyTyped (.tuple elts ty) = (true, .tuple elts1 ty, ds)) ∧
    (∀ elts1 tElts ds, checkTupleElts elts = (false, elts1, tElts, ds) →
      checkFullyTyped (.tuple elts ty) =
        (false, .tuple elts1 (some (.tupleTy tElts)), ds) ∧
      tElts = elts1.map (fun e => (e.1.getType, e.1.getBoundName, e.2))) ∧
    (∀ p init rest p1 ds, checkFullyTyped p = (true, p1, ds) →
      checkTupleElts ((p, init) :: rest) =
        (true, (p1, init) :: rest, [], ds)) ∧
    (∀ p init rest p1 ds, checkFullyTyped p = (false, p1, ds) →
      checkTupleElts ((p, init) :: rest) =
        ((checkTupleElts rest).1, (p1, init) :: (checkTupleElts rest).2.1,
         (p1.getType, p1.getBoundName, init) :: (checkTupleElts rest).2.2.1,
         ds ++ (checkTupleElts rest).2.2.2)) := by
  have mapLemma : ∀ (l : List TuplePatternElt) l1 tElts ds,
      checkTupleElts l = (false, l1, tElts, ds) →
      tElts = l1.map (fun e => (e.1.getType, e.1.getBoundName, e.2)) := by
    intro l
    induction l with
    | nil =>
      intro l1 tElts ds h
      simp [checkTupleElts] at h
      obtain ⟨h1, h2, h3⟩ := h
      subst h1; subst h2
      simp
    | cons hd tl ih =>
      intro l1 tElts ds h
      obtain ⟨p, init⟩ := hd
      rw [checkTupleElts] at h
      cases hp : checkFullyTyped p with
      | mk b rest0 =>
        obtain ⟨p1, ds0⟩ := rest0
        rw [hp] at h
        cases b with
        | true => simp at h
        | false =>
          cases ht : checkTupleElts tl with
          | mk bad rest1 =>
            obtain ⟨tl1, tE, ds2⟩ := rest1
            rw [ht] at h
            simp at h
            obtain ⟨hbad, hl1, htE, -⟩ := h
            subst hl1 htE
            simp [ih tl1 tE ds2 (by rw [ht, hbad])]
  refine ⟨fun elts1 tElts ds h => by simp [checkFullyTyped, h],
          fun elts1 tElts ds h =>
            ⟨by simp [checkFullyTyped, h], mapLemma elts elts1 tElts ds h⟩,
          fun p init rest p1 ds h => by simp [checkTupleElts, h],
          fun p init rest p1 ds h => by simp [checkTupleElts, h]⟩

/-- Witness for C4 at a concrete input: a two-element tuple
`(a : base 1, b : base 2)` synthesizes the ordered component list
`[(base 1, "a", -), (base 2, "b", -)]` with the spec-modelled bound
names (typed elements expose no bound name, so both are empty). -/
theorem checkFullyTyped_tuple_elements_witness :
    checkFullyTyped
        (.tuple [(.typed (.named ("a") none) (.base 1), none),
                 (.typed (.named ("b") none) (.base 2), none)] none) =
      (false,
       .tuple [(.typed (.named ("a") none) (.base 1), none),
               (.typed (.named ("b") none) (.base 2), none)]
         (some (.tupleTy [(some (.base 1), "", none),
                          (some (.base 2), "", none)])),
       []) :=
  ((checkFullyTyped_tuple_elements
      [(.typed (.named ("a") none) (.base 1), none),
       (.typed (.named ("b") none) (.base 2), none)] none).2.1
    [(.typed (.named ("a") none) (.base 1), none),
     (.typed (.named ("b") none) (.base 2), none)]
    [(some (.base 1), "", none), (some (.base 2), "", none)] []
    (by simp [checkTupleElts, checkFullyTyped, Pattern.getType,
              Pattern.getBoundName])).1

/-- C7: `checkFullyTyped` is idempotent: a tree on which it has
succeeded is reproduced identically (every node's type included) by a
second run, which also emits no diagnostics. -/
theorem checkFullyTyped_idempotent (p : Pattern) :
    ∀ p1 ds, checkFullyTyped p = (false, p1, ds) →
      checkFullyTyped p1 = (false, p1, []) := by
  refine checkFullyTyped.induct
    (fun p => ∀ p1 ds, checkFullyTyped p = (false, p1, ds) →
      checkFullyTyped p1 = (false, p1, []))
    (fun l => ∀ l1 tElts ds, checkTupleElts l = (false, l1, tElts, ds) →
      checkTupleElts l1 = (false, l1, tElts, []))
    ?_ ?_ ?_ ?_ ?_ ?_ ?_ ?_ ?_ ?_ p
  · intro sub t p1 ds h
    simp [checkFullyTyped] at h
    obtain ⟨h1, h2⟩ := h
    subst h1
    simp [checkFullyTyped]
  · intro sub ty sub1 ds0 hsub _ p1 ds h
    simp [checkFullyTyped, hsub] at h
  · intro sub ty sub1 ds0 hsub ih p1 ds h
    simp [checkFullyTyped, hsub] at h
    obtain ⟨h1, h2⟩ := h
    subst h1
    simp [checkFullyTyped, ih sub1 ds0 hsub]
  · intro elts ty elts1 tElts ds0 helts _ p1 ds h
    simp [checkFullyTyped, helts] at h
  · intro elts ty elts1 tElts ds0 helts ih p1 ds h
    simp [checkFullyTyped, helts] at h
    obtain ⟨h1, h2⟩ := h
    subst h1
    simp [checkFullyTyped, ih elts1 tElts ds0 helts]
  · intro n ty p1 ds h
    simp [checkFullyTyped] at h
  · intro ty p1 ds h
    simp [checkFullyTyped] at h
  · intro l1 tElts ds h
    simp [checkTupleElts] at h
    obtain ⟨h1, h2, h3⟩ := h
    subst h1; subst h2
    simp [checkTupleElts]
  · intro q init rest sub1 ds0 hq _ l1 tElts ds h
    simp [checkTupleElts, hq] at h
  · intro q init rest sub1 ds0 hq bad rest1 typeElts ds2 hrest ihp ihl l1 tElts ds h
    rw [checkTupleElts, hq, hrest] at h
    simp at h
    obtain ⟨hbad, hl1, htE, -⟩ := h
    subst hbad
    have h2 := ihp sub1 ds0 hq
    have h3 := ihl rest1 typeElts ds2 hrest
    rw [← hl1, ← htE, checkTupleElts, h2, h3]
    simp

/-- Witness for C7 at a concrete input: re-running the checker on the
elaborated form of `((_ : base 0), (x : base 1))` reproduces it. -/
theorem checkFullyTyped_idempotent_witness :
    checkFullyTyped
        (.tuple [(.typed (.any none) (.base 0), none),
                 (.typed (.named ("x") none) (.base 1), none)]
          (some (.tupleTy [(some (.base 0), "", none),
                           (some (.base 1), "", none)]))) =
      (false,
       .tuple [(.typed (.any none) (.base 0), none),
               (.typed (.named ("x") none) (.base 1), none)]
         (some (.tupleTy [(some (.base 0), "", none),
                          (some (.base 1), "", none)])),
       []) :=
  checkFullyTyped_idempotent
    (.tuple [(.typed (.any none) (.base 0), none),
             (.typed (.named ("x") none) (.base 1), none)] none)
    (.tuple [(.typed (.any none) (.base 0), none),
             (.typed (.named ("x") none) (.base 1), none)]
      (some (.tupleTy [(some (.base 0), "", none),
                       (some (.base 1), "", none)]))) []
    (by simp [checkFullyTyped, checkTupleElts, Pattern.getType,
              Pattern.getBoundName])

/-- Helper: shape of a successful `finishPatternTuple`: a `Paren`
exactly in the single-element, defaultless, unnamed case, a `Tuple`
otherwise. -/
theorem finishPatternTuple_success_shape (elts : List TuplePatternElt)
    (hs : Bool) (s : PState) (p : Pattern) (s1 : PState)
    (h : finishPatternTuple elts hs s = (.success p, s1)) :
    (∃ sub, p = .paren sub none ∧ sub.getBoundName = "" ∧
      elts = [(sub, (none : Option Expr))]) ∨
    (p = .tuple elts none ∧
      ¬ ∃ q, elts = [(q, (none : Option Expr))] ∧ q.getBoundName = "") := by
  simp only [finishPatternTuple] at h
  split at h
  · simp at h
  · split at h
    next q init =>
      split at h
      next hcond =>
        left
        simp at h
        exact ⟨q, h.1.symm, hcond.2, by simp [hcond.1]⟩
      next hcond =>
        right
        simp at h
        refine ⟨h.1.symm, ?_⟩
        rintro ⟨q', hq', hname⟩
        simp at hq'
        obtain ⟨hq, hinit⟩ := hq'
        subst hq; subst hinit
        exact hcond ⟨rfl, hname⟩
    next hne =>
      right
      simp at h
      refine ⟨h.1.symm, ?_⟩
      rintro ⟨q', hq', -⟩
      exact hne q' none hq'

/-- Helper: a successful `parsePatternTupleF` goes through
`finishPatternTuple` with no recorded soft failure. -/
theorem parsePatternTupleF_success_via_finish (fuel : Nat) (s : PState)
    (p : Pattern) (s1 : PState)
    (h : parsePatternTupleF fuel s = (.success p, s1)) :
    ∃ elts s2, finishPatternTuple elts false s2 = (.success p, s1) := by
  match fuel with
  | 0 => simp [parsePatternTupleF] at h
  | fuel + 1 =>
    simp only [parsePatternTupleF] at h
    split at h
    · split at h
      · exact ⟨[], _, h⟩
      · split at h
        · simp at h
        · rename_i elts hse s2 heq
          split at h
          · cases hse with
            | false => exact ⟨elts, s2, h⟩
            | true => simp [finishPatternTuple] at h
          · simp at h
    · simp at h

/-- C1: every successful tuple-pattern parse goes through the
construction step `finishPatternTuple` on its parsed element list (with
no recorded soft failure), and the result is a `Paren` exactly when that
element list is a one-element list whose element has no default
expression and whose pattern has an empty bound name — the `Paren` then
wraps precisely that element's pattern; in every other successful case
(more elements, no elements, a default expression present, or a
non-empty bound name) the result is the `Tuple` of exactly that element
list. -/
theorem parsePatternTuple_paren_iff (s : PState) (p : Pattern) (s1 : PState)
    (h : parsePatternTuple s = (.success p, s1)) :
    ∃ elts s2, finishPatternTuple elts false s2 = (.success p, s1) ∧
      ((∃ sub, p = .paren sub none ∧ sub.getBoundName = "" ∧
          elts = [(sub, (none : Option Expr))]) ∨
       (p = .tuple elts none ∧
          ¬ ∃ q, elts = [(q, (none : Option Expr))] ∧
            q.getBoundName = "")) := by
  obtain ⟨elts, s2, hfin⟩ :=
    parsePatternTupleF_success_via_finish (parserFuel s) s p s1 h
  rcases finishPatternTuple_success_shape elts false s2 p s1 hfin with
    ⟨sub, hp, hname, helts⟩ | ⟨hp, hno⟩
  · exact ⟨elts, s2, hfin, .inl ⟨sub, hp, hname, helts⟩⟩
  · exact ⟨elts, s2, hfin, .inr ⟨hp, hno⟩⟩

/-- Witness for C1 at the concrete input `(_)`: the parsed element list
is the defaultless unnamed singleton `[(_, no default)]`, and the parse
demotes to the `Paren` wrapping exactly that element's pattern. -/
theorem parsePatternTuple_paren_iff_witness :
    ∃ elts s2,
      finishPatternTuple elts false s2 =
        (.success (Pattern.paren (.any none) none),
         PState.mk [] [] false) ∧
      ((∃ sub, Pattern.paren (.any none) none = .paren sub none ∧
          sub.getBoundName = "" ∧ elts = [(sub, (none : Option Expr))]) ∨
       (Pattern.paren (.any none) none = .tuple elts none ∧
          ¬ ∃ q, elts = [(q, (none : Option Expr))] ∧
            q.getBoundName = "")) :=
  parsePatternTuple_paren_iff ⟨[.lparen, .ident ("_"), .rparen], [], false⟩
    (.paren (.any none) none) ⟨[], [], false⟩ rfl

/-- C8 counterexample: at the concrete input `(x = <soft-failing expr>)
: <hard-failing type>`, the pattern atom is a soft failure and a colon
follows, yet `parsePattern` hard-fails (the annotation's type parse
fails, and `parsePattern` returns a hard failure, not the claimed soft
failure). -/
theorem parsePattern_soft_atom_cex :
    parsePatternAtomF 63
        ⟨[.lparen, .ident ("x"), .equal, .exprTok .semaError, .rparen,
          .colon, .typeTok none], [], false⟩ =
      (.semaError, ⟨[.colon, .typeTok none], [], false⟩) ∧
    (PState.mk [.colon, .typeTok none] [] false).curTok.kind = .colon ∧
    parsePattern
        ⟨[.lparen, .ident ("x"), .equal, .exprTok .semaError, .rparen,
          .colon, .typeTok none], [], false⟩ =
      (.parseError, ⟨[], [], false⟩) :=
  ⟨rfl, rfl, rfl⟩

/-- C8 as amended: a hard atom failure makes the whole parse hard-fail;
after a soft atom failure with a following colon the annotation is still
parsed, and the result stays a soft failure when the annotation parses
successfully, but becomes a hard failure when the annotation's type
parse fails; with no colon the soft failure is returned as is. -/
theorem parsePattern_soft_atom_typing (fuel : Nat) (s : PState) :
    (∀ s1, parsePatternAtomF fuel s = (.parseError, s1) →
      parsePatternF (fuel + 1) s = (.parseError, s1)) ∧
    (∀ s1 t s2, parsePatternAtomF fuel s = (.semaError, s1) →
      s1.curTok.kind = .colon → parseType (consumeToken s1) = (some t, s2) →
      parsePatternF (fuel + 1) s = (.semaError, s2)) ∧
    (∀ s1 s2, parsePatternAtomF fuel s = (.semaError, s1) →
      s1.curTok.kind = .colon → parseType (consumeToken s1) = (none, s2) →
      parsePatternF (fuel + 1) s = (.parseError, s2)) ∧
    (∀ s1, parsePatternAtomF fuel s = (.semaError, s1) →
      s1.curTok.kind ≠ .colon →
      parsePatternF (fuel + 1) s = (.semaError, s1)) := by
  refine ⟨fun s1 h => ?_, fun s1 t s2 h hc ht => ?_,
          fun s1 s2 h hc ht => ?_, fun s1 h hc => ?_⟩
  · simp [parsePatternF, h]
  · simp [parsePatternF, h, consumeIf, hc, ht]
  · simp [parsePatternF, h, consumeIf, hc, ht]
  · simp [parsePatternF, h, consumeIf, hc]

/-- Witness for C8 at a concrete input: the soft-failing atom
`(x = <soft expr>)` followed by `: <base 3>` stays a soft failure. -/
theorem parsePattern_soft_atom_typing_witness :
    parsePatternF 64
        ⟨[.lparen, .ident ("x"), .equal, .exprTok .semaError, .rparen,
          .colon, .typeTok (some (.base 3))], [], false⟩ =
      (.semaError, ⟨[], [], false⟩) :=
  (parsePattern_soft_atom_typing 63
      ⟨[.lparen, .ident ("x"), .equal, .exprTok .semaError, .rparen,
        .colon, .typeTok (some (.base 3))], [], false⟩).2.1
    ⟨[.colon, .typeTok (some (.base 3))], [], false⟩ (.base 3)
    ⟨[], [], false⟩ rfl rfl rfl

/-- C3 counterexample: at the concrete element-list input
`(x = <soft expr>), y)` the first element's pattern parse is a soft
failure; the loop continues and records the soft failure, but NO
best-effort element is appended for the first element — the resulting
element list holds only `y`'s element. -/
theorem parseTupleElts_soft_pattern_cex :
    parsePatternF 19
        ⟨[.lparen, .ident ("x"), .equal, .exprTok .semaError, .rparen,
          .comma, .ident ("y"), .rparen], [], false⟩ =
      (.semaError, ⟨[.comma, .ident ("y"), .rparen], [], false⟩) ∧
    parseTupleEltsF 20
        ⟨[.lparen, .ident ("x"), .equal, .exprTok .semaError, .rparen,
          .comma, .ident ("y"), .rparen], [], false⟩ [] false =
      (some ([(.named ("y") none, none)], true), ⟨[.rparen], [], false⟩) :=
  ⟨rfl, rfl⟩

/-- C3 as amended: a soft failure in either sub-parse of an element does
not abort the loop and is recorded in the soft-failure flag; when the
default expression soft-fails (the pattern having succeeded) the element
is still appended with a null default; when the element's pattern
soft-fails no element is appended for it; in both cases parsing
continues with the next comma-separated element. -/
theorem parseTupleElts_soft_continue
    (fuel : Nat) (s : PState) (elts : List TuplePatternElt) (hs : Bool) :
    (∀ s1, parsePatternF fuel s = (.semaError, s1) →
      s1.curTok.kind ≠ .equal → s1.curTok.kind = .comma →
      parseTupleEltsF (fuel + 1) s elts hs =
        parseTupleEltsF fuel (consumeToken s1) elts true) ∧
    (∀ s1, parsePatternF fuel s = (.semaError, s1) →
      s1.curTok.kind ≠ .equal → s1.curTok.kind ≠ .comma →
      parseTupleEltsF (fuel + 1) s elts hs = (some (elts, true), s1)) ∧
    (∀ p s1 s3, parsePatternF fuel s = (.success p, s1) →
      s1.curTok.kind = .equal →
      parseExpr (consumeToken s1) = (.semaError, s3) →
      s3.curTok.kind = .comma →
      parseTupleEltsF (fuel + 1) s elts hs =
        parseTupleEltsF fuel (consumeToken s3) (elts ++ [(p, none)]) true) ∧
    (∀ p s1 s3, parsePatternF fuel s = (.success p, s1) →
      s1.curTok.kind = .equal →
      parseExpr (consumeToken s1) = (.semaError, s3) →
      s3.curTok.kind ≠ .comma →
      parseTupleEltsF (fuel + 1) s elts hs =
        (some (elts ++ [(p, none)], true), s3)) ∧
    (∀ s1 e s3, parsePatternF fuel s = (.semaError, s1) →
      s1.curTok.kind = .equal →
      parseExpr (consumeToken s1) = (.success e, s3) →
      s3.curTok.kind ≠ .comma →
      parseTupleEltsF (fuel + 1) s elts hs = (some (elts, true), s3)) := by
  refine ⟨fun s1 h hne hcm => ?_, fun s1 h hne hcm => ?_,
          fun p s1 s3 h heq hex hcm => ?_, fun p s1 s3 h heq hex hcm => ?_,
          fun s1 e s3 h heq hex hcm => ?_⟩
  · simp [parseTupleEltsF, h, consumeIf, hne, hcm, tupleEltAcc]
  · simp [parseTupleEltsF, h, consumeIf, hne, hcm, tupleEltAcc]
  · simp [parseTupleEltsF, h, consumeIf, heq, hex, hcm, tupleEltAcc]
  · simp [parseTupleEltsF, h, consumeIf, heq, hex, hcm, tupleEltAcc]
  · simp [parseTupleEltsF, h, consumeIf, heq, hex, hcm, tupleEltAcc]

/-- Witness for C3 at the concrete input `(x = <soft expr>), y)`: the
soft-failed first element leaves the element list unchanged and the loop
proceeds past the comma with the soft-failure flag set. -/
theorem parseTupleElts_soft_continue_witness :
    parseTupleEltsF 20
        ⟨[.lparen, .ident ("x"), .equal, .exprTok .semaError, .rparen,
          .comma, .ident ("y"), .rparen], [], false⟩ [] false =
      parseTupleEltsF 19 ⟨[.ident ("y"), .rparen], [], false⟩ [] true :=
  (parseTupleElts_soft_continue 19
      ⟨[.lparen, .ident ("x"), .equal, .exprTok .semaError, .rparen,
        .comma, .ident ("y"), .rparen], [], false⟩ [] false).1
    ⟨[.comma, .ident ("y"), .rparen], [], false⟩ rfl (by decide) rfl

/-- C6: hard-failure handling of `parsePatternTuple`.  A hard failure of
an element's pattern parse or of its default-expression parse makes the
element loop skip tokens up to and including the next closing
parenthesis and exit hard; a loop-level hard failure makes the whole
tuple parse hard-fail with that state; and a missing closing parenthesis
after the element list emits the `expected_rparen_tuple_pattern_list`
diagnostic, skips to the closing parenthesis, and hard-fails.  In every
case the result is the bare `ParseResult.parseError`, which carries no
element list. -/
theorem parsePatternTuple_hard_failure (fuel : Nat) (s : PState)
    (elts : List TuplePatternElt) (hs : Bool) :
    (∀ s1, parsePatternF fuel s = (.parseError, s1) →
      parseTupleEltsF (fuel + 1) s elts hs = (none, skipUntilRParen s1)) ∧
    (∀ pat s1 s3, parsePatternF fuel s = (pat, s1) → pat ≠ .parseError →
      s1.curTok.kind = .equal →
      parseExpr (consumeToken s1) = (.parseError, s3) →
      parseTupleEltsF (fuel + 1) s elts hs = (none, skipUntilRParen s3)) ∧
    (∀ s2, s.curTok.isLParenLike = true →
      (consumeToken s).curTok.kind ≠ .rparen →
      parseTupleEltsF fuel (consumeToken s) [] false = (none, s2) →
      parsePatternTupleF (fuel + 1) s = (.parseError, s2)) ∧
    (∀ l hse s2, s.curTok.isLParenLike = true →
      (consumeToken s).curTok.kind ≠ .rparen →
      parseTupleEltsF fuel (consumeToken s) [] false = (some (l, hse), s2) →
      s2.curTok.kind ≠ .rparen →
      parsePatternTupleF (fuel + 1) s =
        (.parseError, skipUntilRParen (diagnose .expectedRParen s2))) := by
  refine ⟨fun s1 h => ?_, fun pat s1 s3 h hne heq hex => ?_,
          fun s2 hlp hnr h => ?_, fun l hse s2 hlp hnr h hnr2 => ?_⟩
  · simp [parseTupleEltsF, h]
  · match pat with
    | .parseError => exact absurd rfl hne
    | .semaError => simp [parseTupleEltsF, h, consumeIf, heq, hex]
    | .success p => simp [parseTupleEltsF, h, consumeIf, heq, hex]
  · simp [parsePatternTupleF, hlp, hnr, h]
  · simp [parsePatternTupleF, hlp, hnr, h, hnr2]

/-- Witness for C6 at the concrete input `(x : base 1` with no closing
parenthesis: the missing parenthesis is diagnosed and the parse
hard-fails after skipping to the (absent) closing parenthesis. -/
theorem parsePatternTuple_hard_failure_witness :
    parsePatternTupleF 21
        ⟨[.lparen, .ident ("x"), .colon, .typeTok (some (.base 1))],
         [], false⟩ =
      (.parseError, ⟨[], [.expectedRParen], false⟩) :=
  (parsePatternTuple_hard_failure 20
      ⟨[.lparen, .ident ("x"), .colon, .typeTok (some (.base 1))],
       [], false⟩ [] false).2.2.2
    [(.typed (.named ("x") none) (.base 1), none)] false ⟨[], [], false⟩
    rfl (by decide) rfl (by decide)

/-- C2 counterexample: a signature with exactly one curried clause
`(x = <soft expr>)` and no hard failure.  The clause parse is a soft
failure, the loop records it, but the clause pattern is NOT appended:
zero clause patterns are produced and the final type `base 0` has zero
levels of function-type nesting, not one. -/
theorem parseFunctionSignature_semaclause_cex :
    parsePatternTupleF 63
        ⟨[.lparen, .ident ("x"), .equal, .exprTok .semaError, .rparen,
          .arrow, .typeTok (some (.base 0))], [], false⟩ =
      (.semaError, ⟨[.arrow, .typeTok (some (.base 0))], [], false⟩) ∧
    parseFunctionSignature
        ⟨[.lparen, .ident ("x"), .equal, .exprTok .semaError, .rparen,
          .arrow, .typeTok (some (.base 0))], [], false⟩ =
      (some ([], some (.base 0)), ⟨[], [], false⟩) ∧
    fnDepth (some (.base 0)) = 0 :=
  ⟨rfl, rfl, by simp [fnDepth]⟩

/-- C2 as amended: a clause parse that succeeds appends its clause
pattern and the loop continues while another clause opens; a clause
parse that soft-fails is recorded in the flag but contributes no clause
pattern (the list is unchanged); and the final type carries exactly one
level of function-type nesting per clause pattern actually in the folded
list (on top of the return type's own nesting). -/
theorem parseSigClauses_append_successes (fuel : Nat) (s : PState)
    (params : List Pattern) (hs : Bool) :
    (∀ p s1, parsePatternTupleF fuel s = (.success p, s1) →
      parseSigClausesF (fuel + 1) s params hs =
        (if s1.curTok.isLParenLike then
          parseSigClausesF fuel s1 (params ++ [p]) hs
        else (some (params ++ [p], hs), s1))) ∧
    (∀ s1, parsePatternTupleF fuel s = (.semaError, s1) →
      parseSigClausesF (fuel + 1) s params hs =
        (if s1.curTok.isLParenLike then parseSigClausesF fuel s1 params true
        else (some (params, true), s1))) ∧
    (∀ l t, fnDepth ((buildFunctionType l t).2.1) = l.length + fnDepth t) := by
  refine ⟨fun p s1 h => ?_, fun s1 h => ?_, fun l t => ?_⟩
  · rw [parseSigClausesF, h]
  · rw [parseSigClausesF, h]
  · induction l with
    | nil => simp [buildFunctionType]
    | cons q rest ih =>
      rw [buildFunctionType]
      cases hb : buildFunctionType rest t with
      | mk rest1 pr =>
        obtain ⟨ty1, ds1⟩ := pr
        cases hc : checkFullyTyped q with
        | mk bad pr2 =>
          obtain ⟨q1, ds⟩ := pr2
          rw [hb] at ih
          cases bad <;> simp [fnDepth, ih] <;> omega

/-- Witness for C2 at the concrete one-clause input
`(x = <soft expr>) -> base 0`: the soft-failed clause leaves the clause
list empty. -/
theorem parseSigClauses_append_successes_witness :
    parseSigClausesF 64
        ⟨[.lparen, .ident ("x"), .equal, .exprTok .semaError, .rparen,
          .arrow, .typeTok (some (.base 0))], [], false⟩ [] false =
      (some ([], true), ⟨[.arrow, .typeTok (some (.base 0))], [], false⟩) := by
  rw [(parseSigClauses_append_successes 63
      ⟨[.lparen, .ident ("x"), .equal, .exprTok .semaError, .rparen,
        .arrow, .typeTok (some (.base 0))], [], false⟩ [] false).2.1
    ⟨[.arrow, .typeTok (some (.base 0))], [], false⟩ rfl]
  rfl

/-- C5: the signature's type starts from the return type — the parsed
type after an arrow, or the empty-tuple type when no arrow is present —
and folds the clause patterns from last-declared to first-declared, each
step wrapping `FunctionType(paramType, resultSoFar)` where `paramType`
is the clause's checker-synthesized type on success and the empty-tuple
type on checker failure, the fold continuing rather than aborting on
such a failure. -/
theorem parseFunctionSignature_fold (fuel : Nat) (s : PState) :
    (∀ params hs s1, parseSigClausesF fuel s [] false = (some (params, hs), s1) →
      s1.curTok.kind ≠ .arrow →
      parseFunctionSignatureF fuel s =
        (some ((buildFunctionType params (some (.tupleTy []))).1,
               (buildFunctionType params (some (.tupleTy []))).2.1),
         { s1 with diags :=
            s1.diags ++ (buildFunctionType params (some (.tupleTy []))).2.2 })) ∧
    (∀ params hs s1 t s2, parseSigClausesF fuel s [] false = (some (params, hs), s1) →
      s1.curTok.kind = .arrow → parseType (consumeToken s1) = (some t, s2) →
      parseFunctionSignatureF fuel s =
        (some ((buildFunctionType params (some t)).1,
               (buildFunctionType params (some t)).2.1),
         { s2 with diags := s2.diags ++ (buildFunctionType params (some t)).2.2 })) ∧
    (∀ params hs s1 s2, parseSigClausesF fuel s [] false = (some (params, hs), s1) →
      s1.curTok.kind = .arrow → parseType (consumeToken s1) = (none, s2) →
      parseFunctionSignatureF fuel s = (none, s2)) ∧
    (∀ l t, (buildFunctionType l t).2.1 = nestFn (l.map clauseParamType) t) := by
  refine ⟨fun params hs s1 h hna => ?_, fun params hs s1 t s2 h ha ht => ?_,
          fun params hs s1 s2 h ha ht => ?_, fun l t => ?_⟩
  · rw [parseFunctionSignatureF, h]
    simp only [consumeIf, hna, if_neg, ite_false]
    cases hb : buildFunctionType params (some (.tupleTy [])) with
    | mk params1 pr =>
      obtain ⟨ty, ds⟩ := pr
      simp [hna, hb]
  · rw [parseFunctionSignatureF, h]
    simp only [consumeIf, ha, ite_true, if_pos]
    cases hb : buildFunctionType params (some t) with
    | mk params1 pr =>
      obtain ⟨ty, ds⟩ := pr
      simp [ha, ht, hb]
  · rw [parseFunctionSignatureF, h]
    simp [consumeIf, ha, ht]
  · induction l with
    | nil => simp [buildFunctionType, nestFn]
    | cons q rest ih =>
      rw [buildFunctionType]
      cases hb : buildFunctionType rest t with
      | mk rest1 pr =>
        obtain ⟨ty1, ds1⟩ := pr
        rw [hb] at ih
        cases hc : checkFullyTyped q with
        | mk bad pr2 =>
          obtain ⟨q1, ds⟩ := pr2
          cases bad <;>
            simp [nestFn, clauseParamType, hc] <;>
            simpa [nestFn] using ih

/-- Witness for C5 at the concrete input `(x : base 7) -> base 7`: one
clause folded over the parsed return type yields
`FunctionType(base 7, base 7)` (the single annotated, unnamed element
demotes to a `Paren`, whose type passes through). -/
theorem parseFunctionSignature_fold_witness :
    parseFunctionSignatureF 64
        ⟨[.lparen, .ident ("x"), .colon, .typeTok (some (.base 7)), .rparen,
          .arrow, .typeTok (some (.base 7))], [], false⟩ =
      (some ([.paren (.typed (.named ("x") none) (.base 7))
                (some (.base 7))],
             some (.fn (some (.base 7)) (some (.base 7)))),
       ⟨[], [], false⟩) := by
  rw [(parseFunctionSignature_fold 64
      ⟨[.lparen, .ident ("x"), .colon, .typeTok (some (.base 7)), .rparen,
        .arrow, .typeTok (some (.base 7))], [], false⟩).2.1
    [.paren (.typed (.named ("x") none) (.base 7)) none] false
    ⟨[.arrow, .typeTok (some (.base 7))], [], false⟩ (.base 7)
    ⟨[], [], false⟩ rfl rfl rfl]
  simp [buildFunctionType, checkFullyTyped, Pattern.getType]

/-- Helper: `consumeIf` never touches the assertion flag. -/
theorem consumeIf_assertFailed (k : TokKind) (s : PState) :
    ((consumeIf k s).2).assertFailed = s.assertFailed := by
  unfold consumeIf
  split <;> rfl

/-- Helper: the external expression parser never touches the assertion
flag. -/
theorem parseExpr_assertFailed (s : PState) :
    ((parseExpr s).2).assertFailed = s.assertFailed := by
  unfold parseExpr
  split <;> rfl

/-- Helper: the external type parser never touches the assertion flag. -/
theorem parseType_assertFailed (s : PState) :
    ((parseType s).2).assertFailed = s.assertFailed := by
  unfold parseType
  split <;> rfl

/-- Helper: `finishPatternTuple` never touches the assertion flag. -/
theorem finishPatternTuple_assertFailed (elts : List TuplePatternElt)
    (hs : Bool) (s : PState) :
    ((finishPatternTuple elts hs s).2).assertFailed = s.assertFailed := by
  unfold finishPatternTuple
  split
  · rfl
  · split
    · split <;> rfl
    · rfl

/-- Helper: a state produced by the external expression parser carries
its input's assertion flag. -/
theorem assertFailed_of_parseExpr {X : PState} {o : ParseResult Expr}
    {Y : PState} (h : parseExpr X = (o, Y)) :
    Y.assertFailed = X.assertFailed := by
  have h2 : ((parseExpr X).2).assertFailed = Y.assertFailed := by rw [h]
  rw [parseExpr_assertFailed] at h2
  exact h2.symm

/-- Helper: a state produced by the external type parser carries its
input's assertion flag. -/
theorem assertFailed_of_parseType {X : PState} {o : Option Ty}
    {Y : PState} (h : parseType X = (o, Y)) :
    Y.assertFailed = X.assertFailed := by
  have h2 : ((parseType X).2).assertFailed = Y.assertFailed := by rw [h]
  rw [parseType_assertFailed] at h2
  exact h2.symm

/-- Helper: the four parser layers leave the assertion flag unchanged;
the tuple layer needs its entry precondition (the current token opens a
parenthesis), which every internal call site establishes. -/
theorem parse_layers_assertFailed (fuel : Nat) :
    (∀ s, ((parsePatternF fuel s).2).assertFailed = s.assertFailed) ∧
    (∀ s, ((parsePatternAtomF fuel s).2).assertFailed = s.assertFailed) ∧
    (∀ s, s.curTok.isLParenLike = true →
      ((parsePatternTupleF fuel s).2).assertFailed = s.assertFailed) ∧
    (∀ s elts hs,
      ((parseTupleEltsF fuel s elts hs).2).assertFailed = s.assertFailed) := by
  induction fuel with
  | zero => exact ⟨fun s => rfl, fun s => rfl, fun s _ => rfl,
      fun s elts hs => rfl⟩
  | succ fuel ih =>
    obtain ⟨ihP, ihA, ihT, ihE⟩ := ih
    have hPat : ∀ s, ((parsePatternF (fuel + 1) s).2).assertFailed
        = s.assertFailed := by
      intro s
      rw [parsePatternF]
      split
      next s1 heq =>
        have h2 : ((parsePatternAtomF fuel s).2).assertFailed
            = s1.assertFailed := by rw [heq]
        rw [ihA s] at h2
        exact h2.symm
      next pat s1 hne heq =>
        have h1 : s1.assertFailed = s.assertFailed := by
          have h2 : ((parsePatternAtomF fuel s).2).assertFailed
              = s1.assertFailed := by rw [heq]
          rw [ihA s] at h2
          exact h2.symm
        split
        · split
          next s2 heq2 =>
            rw [assertFailed_of_parseType heq2, consumeIf_assertFailed]
            exact h1
          next ty s2 heq2 =>
            split <;>
              (rw [assertFailed_of_parseType heq2, consumeIf_assertFailed];
               exact h1)
        · rw [consumeIf_assertFailed]
          exact h1
    have hAtom : ∀ s, ((parsePatternAtomF (fuel + 1) s).2).assertFailed
        = s.assertFailed := by
      intro s
      rw [parsePatternAtomF]
      split
      next heq => exact ihT s (by rw [heq]; rfl)
      next heq => exact ihT s (by rw [heq]; rfl)
      next text heq => split <;> rfl
      next => rfl
    have hTuple : ∀ s, s.curTok.isLParenLike = true →
        ((parsePatternTupleF (fuel + 1) s).2).assertFailed
          = s.assertFailed := by
      intro s hlp
      rw [parsePatternTupleF, if_pos hlp]
      split
      · rw [finishPatternTuple_assertFailed]
        rfl
      · split
        next s2 heq =>
          have h2 : ((parseTupleEltsF fuel (consumeToken s) [] false).2).assertFailed
              = s2.assertFailed := by rw [heq]
          rw [ihE (consumeToken s) [] false] at h2
          exact h2.symm
        next elts hse s2 heq =>
          have h2 : s2.assertFailed = s.assertFailed := by
            have h3 : ((parseTupleEltsF fuel (consumeToken s) [] false).2).assertFailed
                = s2.assertFailed := by rw [heq]
            rw [ihE (consumeToken s) [] false] at h3
            exact h3.symm
          split
          · rw [finishPatternTuple_assertFailed]
            exact h2
          · exact h2
    have hElts : ∀ s elts hs,
        ((parseTupleEltsF (fuel + 1) s elts hs).2).assertFailed
          = s.assertFailed := by
      intro s elts hs
      rw [parseTupleEltsF]
      split
      next s1 heq =>
        have h2 : ((parsePatternF fuel s).2).assertFailed
            = s1.assertFailed := by rw [heq]
        rw [ihP s] at h2
        exact h2.symm
      next pat s1 hne heq =>
        have h1 : s1.assertFailed = s.assertFailed := by
          have h2 : ((parsePatternF fuel s).2).assertFailed
              = s1.assertFailed := by rw [heq]
          rw [ihP s] at h2
          exact h2.symm
        have hscrut :
            ((if (consumeIf .equal s1).1 then
                match parseExpr (consumeIf .equal s1).2 with
                | (.parseError, s3) => (none, s3)
                | (.semaError, s3) => (some (none, true), s3)
                | (.success e, s3) => (some (some e, false), s3)
              else ((some (none, false) : Option (Option Expr × Bool)),
                    (consumeIf .equal s1).2)).2).assertFailed
              = s.assertFailed := by
          split
          · split
            next s3 heq2 =>
              rw [assertFailed_of_parseExpr heq2, consumeIf_assertFailed]
              exact h1
            next s3 heq2 =>
              rw [assertFailed_of_parseExpr heq2, consumeIf_assertFailed]
              exact h1
            next e s3 heq2 =>
              rw [assertFailed_of_parseExpr heq2, consumeIf_assertFailed]
              exact h1
          · rw [consumeIf_assertFailed]
            exact h1
        split
        next s3 heq2 =>
          rw [heq2] at hscrut
          exact hscrut
        next init initSema s3 heq2 =>
          rw [heq2] at hscrut
          split
          · rw [ihE, consumeIf_assertFailed]
            exact hscrut
          · rw [consumeIf_assertFailed]
            exact hscrut
    exact ⟨hPat, hAtom, hTuple, hElts⟩

/-- Helper: the clause loop leaves the assertion flag unchanged when
entered with an opening parenthesis as the current token. -/
theorem parseSigClausesF_assertFailed (fuel : Nat) :
    ∀ s params hs, s.curTok.isLParenLike = true →
      ((parseSigClausesF fuel s params hs).2).assertFailed
        = s.assertFailed := by
  induction fuel with
  | zero => intro s params hs _; rfl
  | succ fuel ih =>
    intro s params hs hlp
    rw [parseSigClausesF]
    split
    next s1 heq =>
      have h2 : ((parsePatternTupleF fuel s).2).assertFailed
          = s1.assertFailed := by rw [heq]
      rw [(parse_layers_assertFailed fuel).2.2.1 s hlp] at h2
      exact h2.symm
    next s1 heq =>
      have h1 : s1.assertFailed = s.assertFailed := by
        have h2 : ((parsePatternTupleF fuel s).2).assertFailed
            = s1.assertFailed := by rw [heq]
        rw [(parse_layers_assertFailed fuel).2.2.1 s hlp] at h2
        exact h2.symm
      split
      next hlp1 => rw [ih s1 params true hlp1]; exact h1
      next => exact h1
    next p s1 heq =>
      have h1 : s1.assertFailed = s.assertFailed := by
        have h2 : ((parsePatternTupleF fuel s).2).assertFailed
            = s1.assertFailed := by rw [heq]
        rw [(parse_layers_assertFailed fuel).2.2.1 s hlp] at h2
        exact h2.symm
      split
      next hlp1 => rw [ih s1 (params ++ [p]) hs hlp1]; exact h1
      next => exact h1

/-- Helper: the whole signature parse leaves the assertion flag
unchanged when entered with an opening parenthesis as the current
token. -/
theorem parseFunctionSignatureF_assertFailed (fuel : Nat) (s : PState)
    (hlp : s.curTok.isLParenLike = true) :
    ((parseFunctionSignatureF fuel s).2).assertFailed = s.assertFailed := by
  rw [parseFunctionSignatureF]
  split
  next s1 heq =>
    have h2 : ((parseSigClausesF fuel s [] false).2).assertFailed
        = s1.assertFailed := by rw [heq]
    rw [parseSigClausesF_assertFailed fuel s [] false hlp] at h2
    exact h2.symm
  next params hs0 s1 heq =>
    have h1 : s1.assertFailed = s.assertFailed := by
      have h2 : ((parseSigClausesF fuel s [] false).2).assertFailed
          = s1.assertFailed := by rw [heq]
      rw [parseSigClausesF_assertFailed fuel s [] false hlp] at h2
      exact h2.symm
    have hscrut :
        ((if (consumeIf .arrow s1).1 then parseType (consumeIf .arrow s1).2
          else ((some (.tupleTy []) : Option Ty),
                (consumeIf .arrow s1).2)).2).assertFailed
          = s.assertFailed := by
      split
      · rw [parseType_assertFailed, consumeIf_assertFailed]
        exact h1
      · rw [consumeIf_assertFailed]
        exact h1
    split
    next s2 heq2 =>
      rw [heq2] at hscrut
      exact hscrut
    next retTy s2 heq2 =>
      rw [heq2] at hscrut
      exact hscrut

/-- C10: `parsePatternTuple`'s entry assertion demands an opening
parenthesis (on any other current token the assertion-failure flag is
raised); and when `parseFunctionSignature` is entered with the current
token an opening parenthesis and the flag clear, the flag is still
clear afterwards — the assertion never fires on any invocation,
including the unconditional first clause parse of the do-while loop and
every re-invocation guarded by the loop condition. -/
theorem parseFunctionSignature_assert_never_fires :
    (∀ fuel s, ¬ s.curTok.isLParenLike = true →
      parsePatternTupleF (fuel + 1) s =
        (.parseError, { s with assertFailed := true })) ∧
    (∀ s, s.assertFailed = false → s.curTok.isLParenLike = true →
      ((parseFunctionSignature s).2).assertFailed = false) := by
  constructor
  · intro fuel s hlp
    rw [parsePatternTupleF, if_neg hlp]
  · intro s hflag hlp
    rw [parseFunctionSignature,
      parseFunctionSignatureF_assertFailed (parserFuel s) s hlp, hflag]

/-- Witness for C10 at the concrete input `() -> base 2`: the signature
parse starts at an opening parenthesis and the assertion flag stays
clear. -/
theorem parseFunctionSignature_assert_never_fires_witness :
    ((parseFunctionSignature
        ⟨[.lparen, .rparen, .arrow, .typeTok (some (.base 2))],
         [], false⟩).2).assertFailed = false :=
  parseFunctionSignature_assert_never_fires.2
    ⟨[.lparen, .rparen, .arrow, .typeTok (some (.base 2))], [], false⟩
    rfl rfl

end ParsePattern
